import Mathlib

/-!
Verification of the carplay-service wire codec, session orchestrator and
video pipeline (Go sources under `protocol/`, `link/` and `cmd/server/`).

Bytes are modelled as natural numbers (values 0..255); Go `uint32` values
are naturals reduced mod 2^32, Go `int32` values are integers obtained by
two's-complement reinterpretation of the little-endian `uint32`.
`float32` fields are carried as their 4-byte IEEE-754 bit pattern: the
codec never computes with them, it only moves the 4 bytes.
-/

namespace CarPlay

/-- Go `binary.LittleEndian.Uint32(d[off:off+4])`: little-endian u32 read.
Out-of-range indices read as 0 (never exercised under the length
hypotheses of the theorems below). -/
def readU32 (d : List Nat) (off : Nat) : Nat :=
  d.getD off 0 + 256 * d.getD (off + 1) 0 + 65536 * d.getD (off + 2) 0 +
    16777216 * d.getD (off + 3) 0

/-- Little-endian 4-byte encoding of a u32 (Go `binary.Write(..., LittleEndian, v)`). -/
def u32ToBytes (n : Nat) : List Nat :=
  [n % 256, n / 256 % 256, n / 65536 % 256, n / 16777216 % 256]

/-- Reinterpret a u32 as Go `int32` (two's complement). -/
def toInt32 (n : Nat) : Int :=
  if n % 4294967296 < 2147483648 then (n % 4294967296 : Int)
  else (n % 4294967296 : Int) - 4294967296

/-- Reinterpret a Go `int32` value as the u32 with the same bit pattern. -/
def toUInt32 (i : Int) : Nat := (i % 4294967296).toNat

/-- `const magicNumber uint32 = 0x55aa55aa` (protocol/message.go). -/
def magicNumber : Nat := 0x55aa55aa

/-- The 16-byte frame header (protocol/message.go `Header`). -/
structure Header where
  magic : Nat
  length : Nat
  htype : Nat
  typeN : Nat
  deriving Repr, DecidableEq

/-- The two framing errors `Unmarshal` can return for a `Header`. -/
inductive HeaderError where
  | invalidMagic
  | invalidType
  deriving Repr, DecidableEq

/-- `Unmarshal(data, &Header{})` (protocol/message.go): `struc.Unpack` parses the
four little-endian u32 fields, then the magic value and the
`(Type ^ 0xffffffff) & 0xffffffff == TypeN` cross-check are enforced. -/
def unmarshalHeader (d : List Nat) : Except HeaderError Header :=
  let h : Header := ⟨readU32 d 0, readU32 d 4, readU32 d 8, readU32 d 12⟩
  if h.magic ≠ magicNumber then .error .invalidMagic
  else if (h.htype ^^^ 0xffffffff) &&& 0xffffffff ≠ h.typeN then .error .invalidType
  else .ok h

theorem readU32_append_u32ToBytes (n : Nat) (rest : List Nat) :
    readU32 (u32ToBytes n ++ rest) 0 = n % 4294967296 := by
  simp [readU32, u32ToBytes, List.getD]
  omega

/-- One multi-touch item (protocol/structures.go `TouchItem`); `x`, `y` hold
the float32 bit patterns. -/
structure TouchItem where
  x : Nat
  y : Nat
  action : Nat
  id : Nat
  deriving Repr, DecidableEq

/-- The message payloads of protocol/structures.go, one constructor per Go
struct type (plus `Unknown`).  Fields with a `struc` tag carry their value;
`skip`-tagged fields that only exist on the decode side are kept on the
decode-result structures further below.  `NullTermString`/`[]byte` fields
are byte lists; `float32` fields are bit patterns. -/
inductive Payload where
  | sendFile (fileName content : List Nat)
  | openMsg (width height videoFrameRate format packetMax iBoxVersion phoneWorkMode : Int)
  | opened (width height fps format packetMax iBox phoneMode : Int)
  | heartbeat
  | manufacturerInfo (a b : Int)
  | carPlay (ctype : Nat)
  | softwareVersion (version : List Nat)
  | bluetoothAddress (address : List Nat)
  | bluetoothPIN (address : List Nat)
  | plugged (phoneType : Nat) (wifi : Int)
  | unplugged
  | videoData (width height flags unknown2 : Int) (vdata : List Nat)
  | audioData (decodeType volumeBits : Nat) (audioType : Int)
  | touch (action x y flags : Nat)
  | bluetoothDeviceName (bdata : List Nat)
  | wifiDeviceName (wdata : List Nat)
  | bluetoothPairedList (pdata : List Nat)
  | multiTouch (touches : List TouchItem)
  | phase (phaseValue : Nat)
  | hiCarLink (link : List Nat)
  | boxSettings (settings : List Nat)
  | mediaData (mtype : Nat) (mediaInfo : List Nat)
  | logoTypeMsg (logo : Nat)
  | disconnectPhone
  | closeDongle
  | unknown (utype : Nat) (udata : List Nat)
  deriving Repr, DecidableEq

/-- The `messageTypes` registry of protocol/message.go: payload kind to wire
type code.  `Unknown` is not in the map, so `Marshal` has no code for it. -/
def messageType : Payload → Option Nat
  | .sendFile _ _ => some 0x99
  | .openMsg _ _ _ _ _ _ _ => some 0x01
  | .opened _ _ _ _ _ _ _ => some 0x01
  | .heartbeat => some 0xaa
  | .manufacturerInfo _ _ => some 0x14
  | .carPlay _ => some 0x08
  | .softwareVersion _ => some 0xcc
  | .bluetoothAddress _ => some 0x0a
  | .bluetoothPIN _ => some 0x0c
  | .plugged _ _ => some 0x02
  | .unplugged => some 0x04
  | .videoData _ _ _ _ _ => some 0x06
  | .audioData _ _ _ => some 0x07
  | .touch _ _ _ _ => some 0x05
  | .bluetoothDeviceName _ => some 0x0d
  | .wifiDeviceName _ => some 0x0e
  | .bluetoothPairedList _ => some 0x12
  | .multiTouch _ => some 0x17
  | .phase _ => some 0x03
  | .hiCarLink _ => some 0x18
  | .boxSettings _ => some 0x19
  | .mediaData _ _ => some 0x2a
  | .logoTypeMsg _ => some 0x09
  | .disconnectPhone => some 0x0f
  | .closeDongle => some 0x15
  | .unknown _ _ => none

/-- Encode a Go `int32` field little-endian (`struc:"int32,little"`). -/
def i32ToBytes (i : Int) : List Nat := u32ToBytes (toUInt32 i)

/-- Pad or truncate to a fixed byte width (struc `[n]byte` string fields). -/
def fixedBytes (n : Nat) (s : List Nat) : List Nat :=
  (s ++ List.replicate n 0).take n

/-- `packPayload` (protocol/message.go): the struc-encoded body of each
payload kind, following the `struc` tags of protocol/structures.go.
`skip`-tagged fields contribute no bytes; `sizeof` fields encode the
length of their linked slice; structs with zero fields pack nothing; the
`omitempty` tag on `Plugged.Wifi` (an inbound-only kind) is modelled as
omit-when-zero. -/
def encodeBody : Payload → List Nat
  | .sendFile fn c => u32ToBytes fn.length ++ fn ++ u32ToBytes c.length ++ c
  | .openMsg w h fr fo pm ib pw =>
      i32ToBytes w ++ i32ToBytes h ++ i32ToBytes fr ++ i32ToBytes fo ++
        i32ToBytes pm ++ i32ToBytes ib ++ i32ToBytes pw
  | .opened w h fp fo pm ib pm2 =>
      i32ToBytes w ++ i32ToBytes h ++ i32ToBytes fp ++ i32ToBytes fo ++
        i32ToBytes pm ++ i32ToBytes ib ++ i32ToBytes pm2
  | .heartbeat => []
  | .manufacturerInfo a b => i32ToBytes a ++ i32ToBytes b
  | .carPlay t => u32ToBytes t
  | .softwareVersion v => fixedBytes 32 v
  | .bluetoothAddress a => fixedBytes 17 a
  | .bluetoothPIN a => fixedBytes 4 a
  | .plugged pt wifi => u32ToBytes pt ++ (if wifi = 0 then [] else i32ToBytes wifi)
  | .unplugged => []
  | .videoData w h f u2 dat =>
      i32ToBytes w ++ i32ToBytes h ++ i32ToBytes f ++ u32ToBytes dat.length ++
        i32ToBytes u2 ++ dat
  | .audioData dt vb at0 => u32ToBytes dt ++ u32ToBytes vb ++ i32ToBytes at0
  | .touch a x y fl => u32ToBytes a ++ u32ToBytes x ++ u32ToBytes y ++ u32ToBytes fl
  | .bluetoothDeviceName _ => []
  | .wifiDeviceName _ => []
  | .bluetoothPairedList _ => []
  | .multiTouch _ => []
  | .phase v => u32ToBytes v
  | .hiCarLink _ => []
  | .boxSettings _ => []
  | .mediaData t _ => u32ToBytes t
  | .logoTypeMsg l => u32ToBytes l
  | .disconnectPhone => []
  | .closeDongle => []
  | .unknown _ _ => []

/-- `packHeader` (protocol/message.go): the 16 header bytes put in front of a
body of length `len` for type code `t`:
`Header{Magic: magicNumber, Length: uint32(len(data)), Type: msgType, TypeN: msgType ^ 0xffffffff}`. -/
def headerBytes (t : Nat) (len : Nat) : List Nat :=
  u32ToBytes magicNumber ++ (u32ToBytes len ++ (u32ToBytes t ++
    u32ToBytes ((t ^^^ 0xffffffff) &&& 0xffffffff)))

/-- `Marshal` (protocol/message.go): encode the body, look the type code up in
the registry (failing when absent), prepend the header. -/
def Marshal (p : Payload) : Option (List Nat) :=
  match messageType p with
  | none => none
  | some t =>
      let body := encodeBody p
      some (headerBytes t body.length ++ body)

theorem and_mask32 (x : Nat) : x &&& 4294967295 = x % 4294967296 := by
  have h := Nat.and_pow_two_sub_one_eq_mod x 32
  norm_num at h
  omega

theorem headerBytes_length (t len : Nat) : (headerBytes t len).length = 16 := by
  simp [headerBytes, u32ToBytes]

theorem readU32_u32ToBytes_skip (n : Nat) (rest : List Nat) (off : Nat) :
    readU32 (u32ToBytes n ++ rest) (off + 4) = readU32 rest off := by
  simp [readU32, u32ToBytes, List.getD]

theorem readU32_u32ToBytes (n : Nat) : readU32 (u32ToBytes n) 0 = n % 4294967296 := by
  have h := readU32_append_u32ToBytes n []
  simpa using h

theorem unmarshalHeader_headerBytes (t len : Nat)
    (ht : t < 4294967296) (hl : len < 4294967296) :
    unmarshalHeader (headerBytes t len) = .ok ⟨magicNumber, len, t, t ^^^ 0xffffffff⟩ := by
  have hx : t ^^^ 4294967295 < 4294967296 := by
    have h2 := @Nat.xor_lt_two_pow t 4294967295 32 (by omega) (by norm_num)
    omega
  have hv : (t ^^^ 0xffffffff) &&& 0xffffffff = t ^^^ 0xffffffff := by
    rw [and_mask32]
    omega
  have h0 : readU32 (headerBytes t len) 0 = magicNumber := by
    rw [headerBytes, readU32_append_u32ToBytes]
    norm_num [magicNumber]
  have h4 : readU32 (headerBytes t len) 4 = len := by
    rw [headerBytes, show (4 : Nat) = 0 + 4 from rfl, readU32_u32ToBytes_skip,
      readU32_append_u32ToBytes]
    omega
  have h8 : readU32 (headerBytes t len) 8 = t := by
    rw [headerBytes, show (8 : Nat) = 0 + 4 + 4 from rfl, readU32_u32ToBytes_skip,
      readU32_u32ToBytes_skip, readU32_append_u32ToBytes]
    omega
  have h12 : readU32 (headerBytes t len) 12 = t ^^^ 0xffffffff := by
    rw [headerBytes, show (12 : Nat) = 0 + 4 + 4 + 4 from rfl, readU32_u32ToBytes_skip,
      readU32_u32ToBytes_skip, readU32_u32ToBytes_skip, readU32_u32ToBytes, hv]
    omega
  simp only [unmarshalHeader, h0, h4, h8, h12]
  simp [magicNumber, hv]

/-- Claim C1: for every payload whose kind is in the message registry (with a
body of u32-representable length), `Marshal` succeeds, its output is
16 bytes of header followed by the encoded body, and decoding the first
16 bytes yields `{magic = 0x55AA55AA, length = |body|, type = registry code,
type_neg = type XOR 0xFFFFFFFF}`. -/
theorem marshal_header_roundtrip (p : Payload) (t : Nat)
    (hreg : messageType p = some t)
    (hlen : (encodeBody p).length < 4294967296) :
    ∃ out, Marshal p = some out ∧
      out.length = 16 + (encodeBody p).length ∧
      unmarshalHeader (out.take 16) =
        .ok ⟨0x55aa55aa, (encodeBody p).length, t, t ^^^ 0xffffffff⟩ := by
  have ht : t < 4294967296 := by
    cases p <;> simp_all [messageType] <;> omega
  refine ⟨headerBytes t (encodeBody p).length ++ encodeBody p, ?_, ?_, ?_⟩
  · simp [Marshal, hreg]
  · simp [headerBytes_length]
  · rw [show (16 : Nat) = (headerBytes t (encodeBody p).length).length from
      (headerBytes_length _ _).symm, List.take_left]
    exact unmarshalHeader_headerBytes t _ ht hlen

/-- Witness for C1 at the `Heartbeat` payload (the spec's own byte-level
example: empty body, type `0xaa`). -/
theorem marshal_header_roundtrip_witness :
    ∃ out, Marshal .heartbeat = some out ∧
      out.length = 16 + (encodeBody .heartbeat).length ∧
      unmarshalHeader (out.take 16) =
        .ok ⟨0x55aa55aa, (encodeBody .heartbeat).length, 0xaa, 0xaa ^^^ 0xffffffff⟩ :=
  marshal_header_roundtrip .heartbeat 0xaa (by decide) (by decide)

theorem getD_lt_of_bytes (d : List Nat) (hb : ∀ x ∈ d, x < 256) (i : Nat) :
    d.getD i 0 < 256 := by
  rcases Nat.lt_or_ge i d.length with hi | hi
  · rw [List.getD_eq_getElem d 0 hi]
    exact hb _ (List.getElem_mem hi)
  · rw [List.getD_eq_default d 0 hi]
    norm_num

theorem readU32_lt_of_bytes (d : List Nat) (hb : ∀ x ∈ d, x < 256) (off : Nat) :
    readU32 d off < 4294967296 := by
  have h0 := getD_lt_of_bytes d hb off
  have h1 := getD_lt_of_bytes d hb (off + 1)
  have h2 := getD_lt_of_bytes d hb (off + 2)
  have h3 := getD_lt_of_bytes d hb (off + 3)
  unfold readU32
  omega

/-- Claim C2: on every 16-byte input, header decoding fails iff the parsed
little-endian magic differs from `0x55AA55AA` or the parsed type XOR
`0xFFFFFFFF` differs from the parsed `type_neg`; the error distinguishes the
invalid-magic case from the invalid-type case (magic checked first), and on
success the four fields are exactly the four little-endian u32 values of
the input. -/
theorem unmarshalHeader_cases (d : List Nat)
    (_hlen16 : d.length = 16) (hb : ∀ x ∈ d, x < 256) :
    ((∃ e, unmarshalHeader d = .error e) ↔
      (readU32 d 0 ≠ 0x55aa55aa ∨ readU32 d 8 ^^^ 0xffffffff ≠ readU32 d 12)) ∧
    (unmarshalHeader d = .error .invalidMagic ↔ readU32 d 0 ≠ 0x55aa55aa) ∧
    (unmarshalHeader d = .error .invalidType ↔
      (readU32 d 0 = 0x55aa55aa ∧ readU32 d 8 ^^^ 0xffffffff ≠ readU32 d 12)) ∧
    (∀ hd, unmarshalHeader d = .ok hd →
      hd = ⟨readU32 d 0, readU32 d 4, readU32 d 8, readU32 d 12⟩) := by
  have hT := readU32_lt_of_bytes d hb 8
  have hmask : (readU32 d 8 ^^^ 0xffffffff) &&& 0xffffffff = readU32 d 8 ^^^ 0xffffffff := by
    have hx : readU32 d 8 ^^^ 4294967295 < 4294967296 := by
      have h2 := @Nat.xor_lt_two_pow (readU32 d 8) 4294967295 32 (by omega) (by norm_num)
      omega
    rw [and_mask32]
    omega
  have hN := readU32_lt_of_bytes d hb 12
  have hmask12 : readU32 d 12 &&& 0xffffffff = readU32 d 12 := by
    rw [and_mask32]
    omega
  by_cases hA : readU32 d 0 = 0x55aa55aa <;>
    by_cases hX : readU32 d 8 ^^^ 0xffffffff = readU32 d 12 <;>
      simp [unmarshalHeader, magicNumber, hA, hX, hmask, hmask12]

/-- Witness for C2: a concrete valid 16-byte header (magic, length 0,
type 1, type_neg `0xfffffffe`). -/
theorem unmarshalHeader_cases_witness :
    let d : List Nat := [0xaa, 0x55, 0xaa, 0x55, 0, 0, 0, 0, 1, 0, 0, 0,
      0xfe, 0xff, 0xff, 0xff]
    ((∃ e, unmarshalHeader d = .error e) ↔
      (readU32 d 0 ≠ 0x55aa55aa ∨ readU32 d 8 ^^^ 0xffffffff ≠ readU32 d 12)) ∧
    (unmarshalHeader d = .error .invalidMagic ↔ readU32 d 0 ≠ 0x55aa55aa) ∧
    (unmarshalHeader d = .error .invalidType ↔
      (readU32 d 0 = 0x55aa55aa ∧ readU32 d 8 ^^^ 0xffffffff ≠ readU32 d 12)) ∧
    (∀ hd, unmarshalHeader d = .ok hd →
      hd = ⟨readU32 d 0, readU32 d 4, readU32 d 8, readU32 d 12⟩) :=
  unmarshalHeader_cases _ (by decide) (by decide)

/-- The registry as an association list: wire code to the zero value
`reflect.New(key.Elem())` produces for one kind carrying that code
(`GetPayloadByHeader`, protocol/message.go).  Go map iteration order is
unspecified; it only matters for code `0x01` (`Open` vs `Opened`), which no
claim depends on. -/
def registry : List (Nat × Payload) :=
  [(0x99, .sendFile [] []), (0x01, .openMsg 0 0 0 0 0 0 0), (0xaa, .heartbeat),
   (0x14, .manufacturerInfo 0 0), (0x08, .carPlay 0), (0xcc, .softwareVersion []),
   (0x0a, .bluetoothAddress []), (0x0c, .bluetoothPIN []), (0x02, .plugged 0 0),
   (0x04, .unplugged), (0x06, .videoData 0 0 0 0 []), (0x07, .audioData 0 0 0),
   (0x05, .touch 0 0 0 0), (0x0d, .bluetoothDeviceName []), (0x0e, .wifiDeviceName []),
   (0x12, .bluetoothPairedList []), (0x17, .multiTouch []), (0x03, .phase 0),
   (0x18, .hiCarLink []), (0x19, .boxSettings []), (0x2a, .mediaData 0 []),
   (0x09, .logoTypeMsg 0), (0x0f, .disconnectPhone), (0x15, .closeDongle)]

/-- The set of wire type codes present in the `messageTypes` registry. -/
def registryCodes : List Nat := registry.map Prod.fst

/-- `GetPayloadByHeader` (protocol/message.go): scan the registry for a kind
with the header's type code and return a fresh zero payload of that kind;
an absent code yields `&Unknown{Type: hdr.Type}`. -/
def GetPayloadByHeader (hdr : Header) : Payload :=
  match registry.find? (fun kv => kv.1 == hdr.htype) with
  | some kv => kv.2
  | none => .unknown hdr.htype []

/-- Decode-side failure: `struc.Unpack` ran out of input bytes. -/
inductive DecodeError where
  | strucShort
  deriving Repr, DecidableEq

/-- The `case *Unknown` branch of `Unmarshal` (protocol/message.go):
`struc.Unpack` reads nothing (both fields are `skip`-tagged), then
`payload.Data = data`; the function returns nil. -/
def unmarshalUnknown (utype : Nat) (d : List Nat) : Except DecodeError Payload :=
  .ok (.unknown utype d)

/-- Claim C3: a type code outside the registry never fails decoding:
`GetPayloadByHeader` yields an `Unknown` carrying exactly that code, and
`Unmarshal` on it returns, without error, the `Unknown` record carrying the
code and the raw body bytes. -/
theorem unknown_code_decodes (hdr : Header) (d : List Nat)
    (hreg : hdr.htype ∉ registryCodes) :
    GetPayloadByHeader hdr = .unknown hdr.htype [] ∧
    unmarshalUnknown hdr.htype d = .ok (.unknown hdr.htype d) := by
  constructor
  · have hfind : registry.find? (fun kv => kv.1 == hdr.htype) = none := by
      apply List.find?_eq_none.mpr
      intro kv hkv
      simp only [beq_iff_eq]
      intro he
      exact hreg (he ▸ List.mem_map.mpr ⟨kv, hkv, rfl⟩)
    simp [GetPayloadByHeader, hfind]
  · rfl

/-- Witness for C3 at code `0x42` with a 3-byte body. -/
theorem unknown_code_decodes_witness :
    GetPayloadByHeader ⟨0x55aa55aa, 3, 0x42, 0x42 ^^^ 0xffffffff⟩ = .unknown 0x42 [] ∧
    unmarshalUnknown 0x42 [1, 2, 3] = .ok (.unknown 0x42 [1, 2, 3]) :=
  unknown_code_decodes ⟨0x55aa55aa, 3, 0x42, 0x42 ^^^ 0xffffffff⟩ [1, 2, 3] (by decide)

/-- The decoded form of an `AudioData` message (protocol/structures.go): the
three struc-parsed fields plus the three `skip` fields that `Unmarshal`
fills depending on the trailing length.  `volume` is the float32 bit
pattern; `none` models the Go zero value left untouched. -/
structure AudioDataMsg where
  decodeType : Nat
  volume : Nat
  audioType : Int
  command : Option Nat
  volumeDuration : Option Int
  adata : Option (List Nat)
  deriving Repr, DecidableEq

/-- `Unmarshal` on `*AudioData` (protocol/message.go): `struc.Unpack` parses
`DecodeType u32le, Volume f32le, AudioType i32le` (12 bytes; fewer is an
unpack error), then `len(data) - 12` selects the variant. -/
def unmarshalAudioData (d : List Nat) : Except DecodeError AudioDataMsg :=
  if d.length < 12 then .error .strucShort
  else
    let base : AudioDataMsg :=
      ⟨readU32 d 0, readU32 d 4, toInt32 (readU32 d 8), none, none, none⟩
    if d.length - 12 = 1 then .ok {base with command := some (d.getD 12 0)}
    else if d.length - 12 = 4 then
      .ok {base with volumeDuration := some (toInt32 (readU32 d 12))}
    else .ok {base with adata := some (d.drop 12)}

/-- Claim C4: every `AudioData` body of length at least 12 decodes without
error; the first 12 bytes give `decodeType`, `volume`, `audioType`
little-endian, and the trailing length disambiguates: exactly 1 trailing
byte sets only `Command`, exactly 4 set only `VolumeDuration` (their
little-endian i32), anything else sets only `Data` (bytes from offset 12). -/
theorem audioData_variants (d : List Nat) (h12 : 12 ≤ d.length) :
    ∃ a, unmarshalAudioData d = .ok a ∧
      a.decodeType = readU32 d 0 ∧ a.volume = readU32 d 4 ∧
      a.audioType = toInt32 (readU32 d 8) ∧
      (d.length = 13 →
        a.command = some (d.getD 12 0) ∧ a.volumeDuration = none ∧ a.adata = none) ∧
      (d.length = 16 →
        a.command = none ∧ a.volumeDuration = some (toInt32 (readU32 d 12)) ∧
          a.adata = none) ∧
      (d.length ≠ 13 → d.length ≠ 16 →
        a.command = none ∧ a.volumeDuration = none ∧ a.adata = some (d.drop 12)) := by
  have hnot : ¬ d.length < 12 := by omega
  by_cases h13 : d.length = 13
  · refine ⟨⟨readU32 d 0, readU32 d 4, toInt32 (readU32 d 8),
      some (d.getD 12 0), none, none⟩, ?_, ?_⟩
    · simp [unmarshalAudioData, h13]
    · simp [h13]
  · by_cases h16 : d.length = 16
    · refine ⟨⟨readU32 d 0, readU32 d 4, toInt32 (readU32 d 8),
        none, some (toInt32 (readU32 d 12)), none⟩, ?_, ?_⟩
      · simp [unmarshalAudioData, h16]
      · simp [h16]
    · refine ⟨⟨readU32 d 0, readU32 d 4, toInt32 (readU32 d 8),
        none, none, some (d.drop 12)⟩, ?_, ?_⟩
      · have hne1 : d.length - 12 ≠ 1 := by omega
        have hne4 : d.length - 12 ≠ 4 := by omega
        simp [unmarshalAudioData, hnot, hne1, hne4]
      · simp [h13, h16]

/-- Witness for C4 at a concrete 13-byte body (command variant). -/
theorem audioData_variants_witness :
    ∃ a, unmarshalAudioData [1, 0, 0, 0, 0, 0, 0, 63, 2, 0, 0, 0, 9] = .ok a ∧
      a.decodeType = readU32 [1, 0, 0, 0, 0, 0, 0, 63, 2, 0, 0, 0, 9] 0 ∧
      a.volume = readU32 [1, 0, 0, 0, 0, 0, 0, 63, 2, 0, 0, 0, 9] 4 ∧
      a.audioType = toInt32 (readU32 [1, 0, 0, 0, 0, 0, 0, 63, 2, 0, 0, 0, 9] 8) ∧
      ((13 : Nat) = 13 →
        a.command = some ([1, 0, 0, 0, 0, 0, 0, 63, 2, 0, 0, 0, 9].getD 12 0) ∧
          a.volumeDuration = none ∧ a.adata = none) ∧
      ((13 : Nat) = 16 →
        a.command = none ∧
          a.volumeDuration =
            some (toInt32 (readU32 [1, 0, 0, 0, 0, 0, 0, 63, 2, 0, 0, 0, 9] 12)) ∧
          a.adata = none) ∧
      ((13 : Nat) ≠ 13 → (13 : Nat) ≠ 16 →
        a.command = none ∧ a.volumeDuration = none ∧
          a.adata = some ([1, 0, 0, 0, 0, 0, 0, 63, 2, 0, 0, 0, 9].drop 12)) := by
  have h := audioData_variants [1, 0, 0, 0, 0, 0, 0, 63, 2, 0, 0, 0, 9] (by decide)
  simpa using h

/-- The parse loop of the `*MultiTouch` case of `Unmarshal`
(`for i := 0; i < numTouches; i++`, protocol/message.go), unrolled from the
last iteration: after `n` iterations the slice holds the first `n` items,
item `i` read at `offset = i*16` as `x f32le, y f32le, action u32le,
id u32le` (the floats kept as bit patterns). -/
def parseTouchItems (d : List Nat) : Nat → List TouchItem
  | 0 => []
  | n + 1 => parseTouchItems d n ++
      [⟨readU32 d (16 * n), readU32 d (16 * n + 4),
        readU32 d (16 * n + 8), readU32 d (16 * n + 12)⟩]

/-- Decoded `MultiTouch` message. -/
structure MultiTouchMsg where
  touches : List TouchItem
  deriving Repr, DecidableEq

/-- `Unmarshal` on `*MultiTouch` (protocol/message.go): `struc.Unpack` reads
nothing (the only field is `skip`-tagged), `numTouches := len(data) / 16`
(integer division), and the loop fills the items; the function returns nil
for every input. -/
def unmarshalMultiTouch (d : List Nat) : Except DecodeError MultiTouchMsg :=
  .ok ⟨parseTouchItems d (d.length / 16)⟩

theorem parseTouchItems_length (d : List Nat) (n : Nat) :
    (parseTouchItems d n).length = n := by
  induction n with
  | zero => rfl
  | succ n ih => simp [parseTouchItems, ih]

theorem parseTouchItems_getD (d : List Nat) (n i : Nat) (hi : i < n) :
    (parseTouchItems d n).getD i ⟨0, 0, 0, 0⟩ =
      ⟨readU32 d (16 * i), readU32 d (16 * i + 4),
        readU32 d (16 * i + 8), readU32 d (16 * i + 12)⟩ := by
  induction n with
  | zero => omega
  | succ n ih =>
      rcases Nat.lt_or_ge i n with hlt | hge
      · rw [parseTouchItems, List.getD_append _ _ _ _ (by rw [parseTouchItems_length]; omega)]
        exact ih hlt
      · have hieq : i = n := by omega
        subst hieq
        rw [parseTouchItems, List.getD_eq_getElem _ _ (by simp [parseTouchItems_length])]
        rw [List.getElem_append_right (by simp [parseTouchItems_length])]
        simp [parseTouchItems_length]

/-- Claim C10: `MultiTouch` decoding is total and truncating: every body of
any length decodes without error into exactly `len / 16` touch items, the
`i`-th parsed from bytes `[16i..16i+16)` as `x f32, y f32, action u32,
id u32` little-endian; the trailing `len mod 16` bytes are ignored. -/
theorem multiTouch_total_truncating (d : List Nat) :
    ∃ m, unmarshalMultiTouch d = .ok m ∧
      m.touches.length = d.length / 16 ∧
      ∀ i, i < d.length / 16 →
        m.touches.getD i ⟨0, 0, 0, 0⟩ =
          ⟨readU32 d (16 * i), readU32 d (16 * i + 4),
            readU32 d (16 * i + 8), readU32 d (16 * i + 12)⟩ := by
  refine ⟨⟨parseTouchItems d (d.length / 16)⟩, rfl, parseTouchItems_length d _, ?_⟩
  intro i hi
  exact parseTouchItems_getD d _ i hi

/-- Witness for C10 at a concrete 35-byte body (two items, 3 trailing bytes
ignored). -/
theorem multiTouch_total_truncating_witness :
    ∃ m, unmarshalMultiTouch (List.range 35) = .ok m ∧
      m.touches.length = (List.range 35).length / 16 ∧
      ((List.range 35).length / 16 > 1 →
        m.touches.getD 1 ⟨0, 0, 0, 0⟩ =
          ⟨readU32 (List.range 35) 16, readU32 (List.range 35) 20,
            readU32 (List.range 35) 24, readU32 (List.range 35) 28⟩) := by
  obtain ⟨m, hm, hlen, hget⟩ := multiTouch_total_truncating (List.range 35)
  exact ⟨m, hm, hlen, fun h => by
    have hg := hget 1 h
    simpa using hg⟩

/-! ### VideoData decoding with explicit buffer ownership

`Unmarshal` on `*VideoData` lives in the repository's own protocol package
(the unnamed message.go variant): after `struc.Unpack`, the switch re-parses
the five i32 fields from the raw bytes and copies the trailing bytes via
`make([]byte, len(data)-20); copy(...)` instead of keeping `data[20:]`.
Go slices are modelled explicitly so the fresh-allocation property is a
theorem: a `Heap` is the list of live backing buffers, a `GoSlice` is a view
`(buffer index, offset, length)` into one of them. -/

/-- The live backing buffers, indexed by allocation order. -/
abbrev Heap : Type := List (List Nat)

/-- A Go byte slice: a view into a heap buffer. -/
structure GoSlice where
  buf : Nat
  off : Nat
  slen : Nat
  deriving Repr, DecidableEq

/-- The bytes a slice denotes. -/
def readSlice (h : Heap) (s : GoSlice) : List Nat :=
  ((List.getD h s.buf []).drop s.off).take s.slen

/-- `make([]byte, ...)` + fill: a fresh buffer holding `content`. -/
def allocBuf (h : Heap) (content : List Nat) : Heap × GoSlice :=
  (List.append h [content], ⟨h.length, 0, content.length⟩)

/-- Overwrite buffer `i` in place (reuse of a USB receive buffer). -/
def writeBuf (h : Heap) (i : Nat) (content : List Nat) : Heap :=
  List.set h i content

/-- Decoded `VideoData` message; `vdata` is the slice holding the H.264
payload. -/
structure VideoDataMsg where
  width : Int
  height : Int
  flags : Int
  vlength : Int
  unknown2 : Int
  vdata : GoSlice
  deriving Repr, DecidableEq

/-- `Unmarshal` on `*VideoData` (the repository's message.go):

* empty body: `struc.Unpack` is skipped and the `len(data) >= 20` guard
  fails, so the zero value is returned (nil `Data`, length 0);
* `struc.Unpack` parses `Width, Height, Flags, Length, Unknown2` (i32le)
  and then reads `Length` bytes into a fresh `Data` buffer — fewer than 20
  bytes, or fewer than `Length` bytes after the fixed part, abort decoding
  (a `Length` with the sign bit set aborts it as well, modelled by the same
  guard via the hypothesis `readU32 d 12 < 2^31` of the theorems below);
* the switch then overwrites all five fields from the raw bytes and, when
  `len(data) > 20`, replaces `Data` with `make([]byte, len(data)-20)` +
  `copy(payload.Data, data[20:])` — a freshly owned buffer. -/
def unmarshalVideoData (hp : Heap) (input : GoSlice) :
    Except DecodeError (Heap × VideoDataMsg) :=
  let d := readSlice hp input
  if d.length = 0 then .ok (hp, ⟨0, 0, 0, 0, 0, ⟨0, 0, 0⟩⟩)
  else if d.length < 20 then .error .strucShort
  else if d.length - 20 < readU32 d 12 then .error .strucShort
  else
    let hs := allocBuf hp ((d.drop 20).take (readU32 d 12))
    let vd : VideoDataMsg :=
      ⟨toInt32 (readU32 d 0), toInt32 (readU32 d 4), toInt32 (readU32 d 8),
        toInt32 (readU32 d 12), toInt32 (readU32 d 16), hs.2⟩
    if 20 < d.length then
      let hc := allocBuf hs.1 (d.drop 20)
      .ok (hc.1, {vd with vdata := hc.2})
    else .ok (hs.1, vd)

theorem readSlice_allocBuf (hp : Heap) (c : List Nat) :
    readSlice (allocBuf hp c).1 (allocBuf hp c).2 = c := by
  unfold readSlice allocBuf
  simp only [List.append_eq]
  rw [show List.getD (hp ++ [c]) hp.length [] = c by
    rw [List.getD_eq_getElem _ _ (by simp), List.getElem_append_right (by simp)]
    simp]
  simp

theorem readSlice_append_preserved (hp : Heap) (c : List Nat) (s : GoSlice)
    (hs : s.buf < hp.length) : readSlice (List.append hp [c]) s = readSlice hp s := by
  unfold readSlice
  rw [List.append_eq, List.getD_append _ _ _ _ hs]

theorem readSlice_writeBuf_ne (hp : Heap) (i : Nat) (c : List Nat) (s : GoSlice)
    (hne : i ≠ s.buf) : readSlice (writeBuf hp i c) s = readSlice hp s := by
  unfold readSlice writeBuf
  rw [show List.getD (List.set hp i c) s.buf [] = List.getD hp s.buf [] by
    simp [List.getD, List.getElem?_set_ne hne]]

/-- Claim C5 (amended): a `VideoData` body of length at least 20 whose
little-endian length field (bytes 12..16) is a non-negative i32 not larger
than the trailing byte count decodes without error into the five i32 header
fields and a `Data` slice whose bytes are `body[20..]`, backed by a buffer
disjoint from the input buffer: overwriting the input (USB receive) buffer
afterwards leaves the decoded bytes unchanged.  (The unamended claim fails
when the length field exceeds the trailing byte count: `struc.Unpack` runs
out of bytes and `Unmarshal` returns its error — see the counterexample.) -/
theorem videoData_decode_copies (hp : Heap) (input : GoSlice)
    (hbuf : input.buf < hp.length)
    (h20 : 20 ≤ (readSlice hp input).length)
    (hfld : readU32 (readSlice hp input) 12 ≤ (readSlice hp input).length - 20)
    (_hsign : readU32 (readSlice hp input) 12 < 2147483648) :
    ∃ hp2 vd, unmarshalVideoData hp input = .ok (hp2, vd) ∧
      vd.width = toInt32 (readU32 (readSlice hp input) 0) ∧
      vd.height = toInt32 (readU32 (readSlice hp input) 4) ∧
      vd.flags = toInt32 (readU32 (readSlice hp input) 8) ∧
      vd.vlength = toInt32 (readU32 (readSlice hp input) 12) ∧
      vd.unknown2 = toInt32 (readU32 (readSlice hp input) 16) ∧
      readSlice hp2 vd.vdata = (readSlice hp input).drop 20 ∧
      input.buf ≠ vd.vdata.buf ∧
      (∀ c, readSlice (writeBuf hp2 input.buf c) vd.vdata =
        (readSlice hp input).drop 20) := by
  have h0 : ¬ (readSlice hp input).length = 0 := by omega
  have h1 : ¬ (readSlice hp input).length < 20 := by omega
  have h2 : ¬ ((readSlice hp input).length - 20 < readU32 (readSlice hp input) 12) := by
    omega
  by_cases hgt : 20 < (readSlice hp input).length
  · have heq : unmarshalVideoData hp input =
        .ok ((allocBuf (allocBuf hp (((readSlice hp input).drop 20).take
              (readU32 (readSlice hp input) 12))).1 ((readSlice hp input).drop 20)).1,
          ⟨toInt32 (readU32 (readSlice hp input) 0),
           toInt32 (readU32 (readSlice hp input) 4),
           toInt32 (readU32 (readSlice hp input) 8),
           toInt32 (readU32 (readSlice hp input) 12),
           toInt32 (readU32 (readSlice hp input) 16),
           (allocBuf (allocBuf hp (((readSlice hp input).drop 20).take
              (readU32 (readSlice hp input) 12))).1
              ((readSlice hp input).drop 20)).2⟩) := by
      simp only [unmarshalVideoData]
      rw [if_neg h0, if_neg h1, if_neg h2, if_pos hgt]
    have hfresh : (allocBuf (allocBuf hp (((readSlice hp input).drop 20).take
        (readU32 (readSlice hp input) 12))).1 ((readSlice hp input).drop 20)).2.buf =
        hp.length + 1 := by
      simp [allocBuf]
    refine ⟨_, _, heq, rfl, rfl, rfl, rfl, rfl, readSlice_allocBuf _ _, ?_, ?_⟩
    · rw [hfresh]
      omega
    · intro c
      rw [readSlice_writeBuf_ne _ _ _ _ (by rw [hfresh]; omega)]
      exact readSlice_allocBuf _ _
  · have h20e : (readSlice hp input).length = 20 := by omega
    have heq : unmarshalVideoData hp input =
        .ok ((allocBuf hp (((readSlice hp input).drop 20).take
              (readU32 (readSlice hp input) 12))).1,
          ⟨toInt32 (readU32 (readSlice hp input) 0),
           toInt32 (readU32 (readSlice hp input) 4),
           toInt32 (readU32 (readSlice hp input) 8),
           toInt32 (readU32 (readSlice hp input) 12),
           toInt32 (readU32 (readSlice hp input) 16),
           (allocBuf hp (((readSlice hp input).drop 20).take
              (readU32 (readSlice hp input) 12))).2⟩) := by
      simp only [unmarshalVideoData]
      rw [if_neg h0, if_neg h1, if_neg h2, if_neg hgt]
    have hdrop : ((readSlice hp input).drop 20).take
        (readU32 (readSlice hp input) 12) = (readSlice hp input).drop 20 := by
      have : (readSlice hp input).drop 20 = [] := by
        apply List.drop_eq_nil_of_le
        omega
      simp [this]
    have hfresh : (allocBuf hp (((readSlice hp input).drop 20).take
        (readU32 (readSlice hp input) 12))).2.buf = hp.length := by
      simp [allocBuf]
    refine ⟨_, _, heq, rfl, rfl, rfl, rfl, rfl, ?_, ?_, ?_⟩
    · rw [hdrop]
      exact readSlice_allocBuf _ _
    · rw [hfresh]
      omega
    · intro c
      rw [readSlice_writeBuf_ne _ _ _ _ (by rw [hfresh]; omega), hdrop]
      exact readSlice_allocBuf _ _

/-- Counterexample for C5 as stated: a 20-byte body whose length field is 1
(`body[12..16) = 01 00 00 00`) has length at least 20, yet decoding fails —
`struc.Unpack` wants one trailing `Data` byte and the buffer is exhausted —
so no decoded record is produced at all. -/
theorem videoData_decode_cex :
    (readSlice [[0, 0, 0, 0, 0, 0, 0, 0, 0, 0, 0, 0, 1, 0, 0, 0, 0, 0, 0, 0]]
        ⟨0, 0, 20⟩).length = 20 ∧
    unmarshalVideoData [[0, 0, 0, 0, 0, 0, 0, 0, 0, 0, 0, 0, 1, 0, 0, 0, 0, 0, 0, 0]]
        ⟨0, 0, 20⟩ = .error .strucShort := by
  constructor
  · rfl
  · rfl

/-- Witness for C5 at a 24-byte body with length field 4. -/
theorem videoData_decode_copies_witness :
    ∃ hp2 vd,
      unmarshalVideoData
          [[1, 0, 0, 0, 2, 0, 0, 0, 3, 0, 0, 0, 4, 0, 0, 0, 5, 0, 0, 0,
            0xde, 0xad, 0xbe, 0xef]] ⟨0, 0, 24⟩ = .ok (hp2, vd) ∧
      vd.vlength = 4 ∧ readSlice hp2 vd.vdata = [0xde, 0xad, 0xbe, 0xef] ∧
      (∀ c, readSlice (writeBuf hp2 0 c) vd.vdata = [0xde, 0xad, 0xbe, 0xef]) := by
  obtain ⟨hp2, vd, heq, _, _, _, hl, _, hread, _, hwrite⟩ :=
    videoData_decode_copies
      [[1, 0, 0, 0, 2, 0, 0, 0, 3, 0, 0, 0, 4, 0, 0, 0, 5, 0, 0, 0,
        0xde, 0xad, 0xbe, 0xef]] ⟨0, 0, 24⟩
      (by decide) (by decide) (by decide) (by decide)
  refine ⟨hp2, vd, heq, ?_, ?_, ?_⟩
  · rw [hl]
    decide
  · rw [hread]
    decide
  · intro c
    rw [hwrite c]
    decide

/-! ### Single-touch coordinate scaling (link/helpers.go) -/

/-- The coordinate conversion of `SendSingleTouch` (link/helpers.go):
`scaledX := uint32(x * 10000)` — Go's float-to-uint32 conversion truncates
toward zero — followed by `if scaledX > 10000 { scaledX = 10000 }`.
float32 arithmetic is idealized as exact rational arithmetic; the
counterexample below evaluates it only at dyadic rationals at which every
float32 operation involved is exact, so the idealization is faithful there. -/
def scaleCoord (x : ℚ) : Nat :=
  let scaled := (Int.floor (x * 10000)).toNat
  if scaled > 10000 then 10000 else scaled

/-- `SendSingleTouch(x, y, action)` (link/helpers.go): the `Touch` message
handed to `SendData`, `Flags` fixed to 0. -/
def sendSingleTouchMsg (x y : ℚ) (action : Nat) : Payload :=
  .touch action (scaleCoord x) (scaleCoord y) 0

/-- Modelled from the spec for comparison (its words: `scale(x) =
clamp(round(x * 10000), 0, 10000)`): rounding to the nearest integer, then
clamping. -/
def specScaleRound (x : ℚ) : Int :=
  min (max (round (x * 10000)) 0) 10000

/-- Counterexample for C6 as stated: at `x = 3/16384` (exactly representable
in float32, with an exactly representable product `x * 10000 =
1.8310546875`), the helper computes `1` — truncation — while the claimed
`clamp(round(x * 10000), 0, 10000)` is `2`. -/
theorem touch_scale_cex :
    (0 ≤ (3 / 16384 : ℚ) ∧ (3 / 16384 : ℚ) ≤ 1) ∧
    ((scaleCoord (3 / 16384) : Int) ≠ specScaleRound (3 / 16384)) ∧
    sendSingleTouchMsg (3 / 16384) 0 14 = .touch 14 1 0 0 := by
  have hprod : (3 / 16384 : ℚ) * 10000 = 1875 / 1024 := by norm_num
  have hfloor : Int.floor ((3 / 16384 : ℚ) * 10000) = 1 := by
    rw [hprod, Int.floor_eq_iff]; norm_num
  have hround : round ((3 / 16384 : ℚ) * 10000) = 2 := by
    rw [hprod, round_eq, Int.floor_eq_iff]; norm_num
  have hzero : Int.floor ((0 : ℚ) * 10000) = 0 := by norm_num
  have hs1 : scaleCoord (3 / 16384) = 1 := by
    simp [scaleCoord, hfloor]
  have hs0 : scaleCoord 0 = 0 := by
    simp [scaleCoord, hzero]
  refine ⟨⟨by norm_num, by norm_num⟩, ?_, ?_⟩
  · rw [hs1]
    simp [specScaleRound, hround]
  · rw [sendSingleTouchMsg, hs1, hs0]

/-- Claim C6 (amended): for inputs in `[0,1]` the single-touch helper
computes the wire coordinate as `clamp(trunc(x * 10000), 0, 10000)` —
truncation toward zero of `x * 10000`, clamped to `0..10000` — and places
it in the `Touch` message's `X` (resp. `Y`) field.  (The unamended claim
says rounding to nearest; the counterexample shows truncation.) -/
theorem touch_scale_trunc (x y : ℚ) (action : Nat)
    (hx0 : 0 ≤ x) (hx1 : x ≤ 1) (hy0 : 0 ≤ y) (hy1 : y ≤ 1) :
    sendSingleTouchMsg x y action = .touch action (scaleCoord x) (scaleCoord y) 0 ∧
    (scaleCoord x : Int) = min (max (Int.floor (x * 10000)) 0) 10000 ∧
    (scaleCoord y : Int) = min (max (Int.floor (y * 10000)) 0) 10000 := by
  have key : ∀ z : ℚ, 0 ≤ z → z ≤ 1 →
      (scaleCoord z : Int) = min (max (Int.floor (z * 10000)) 0) 10000 := by
    intro z hz0 hz1
    have hf0 : 0 ≤ Int.floor (z * 10000) := by
      apply Int.floor_nonneg.mpr
      positivity
    have hf1 : Int.floor (z * 10000) ≤ 10000 := by
      have hle : z * 10000 ≤ 10000 := by nlinarith
      calc Int.floor (z * 10000) ≤ Int.floor (10000 : ℚ) := Int.floor_le_floor hle
        _ = 10000 := by norm_num
    have hnat : ((Int.floor (z * 10000)).toNat : Int) = Int.floor (z * 10000) :=
      Int.toNat_of_nonneg hf0
    unfold scaleCoord
    have hcl : ¬ ((Int.floor (z * 10000)).toNat > 10000) := by omega
    simp only [hcl, if_false, if_neg hcl]
    omega
  exact ⟨rfl, key x hx0 hx1, key y hy0 hy1⟩

/-- Witness for C6 at `x = 1/2`, `y = 0`, action `Down` (14). -/
theorem touch_scale_trunc_witness :
    sendSingleTouchMsg (1 / 2) 0 14 =
      .touch 14 (scaleCoord (1 / 2)) (scaleCoord 0) 0 ∧
    (scaleCoord (1 / 2) : Int) = min (max (Int.floor ((1 / 2 : ℚ) * 10000)) 0) 10000 ∧
    (scaleCoord 0 : Int) = min (max (Int.floor ((0 : ℚ) * 10000)) 0) 10000 :=
  touch_scale_trunc (1 / 2) 0 14 (by norm_num) (by norm_num) (by norm_num) (by norm_num)

/-! ### Session orchestrator (link/communicate.go, config from the
gocarplay package) -/

/-- Byte content of a Go string (ASCII paths and names only). -/
def strBytes (s : String) : List Nat := s.data.map Char.toNat

/-- The `FileAddress` constants (protocol enums source). -/
def fileAddressDPI : String := "/tmp/screen_dpi"

def fileAddressNightMode : String := "/tmp/night_mode"

def fileAddressHandDriveMode : String := "/tmp/hand_drive_mode"

def fileAddressChargeMode : String := "/tmp/charge_mode"

def fileAddressBoxName : String := "/etc/box_name"

def fileAddressAndroidWorkMode : String := "/etc/android_work_mode"

/-- `DongleConfig` (gocarplay config source).  `hand` is the
`HandDriveType` code (LHD = 0, RHD = 1); `phoneConfig` maps phone-type
codes to optional frame intervals. -/
structure DongleConfig where
  androidWorkMode : Bool
  autoDetectAndroidMode : Bool
  width : Int
  height : Int
  fps : Int
  dpi : Int
  format : Int
  iBoxVersion : Int
  packetMax : Int
  phoneWorkMode : Int
  nightMode : Bool
  boxName : String
  hand : Int
  mediaDelay : Int
  audioTransferMode : Bool
  wifiType : String
  wifiChannel : Int
  micType : String
  phoneConfig : List (Nat × Option Int)
  deriving Repr, DecidableEq

/-- `DefaultConfig()`. -/
def defaultConfig : DongleConfig :=
  { androidWorkMode := false
    autoDetectAndroidMode := true
    width := 800
    height := 480
    fps := 60
    dpi := 140
    format := 5
    iBoxVersion := 2
    packetMax := 49152
    phoneWorkMode := 2
    nightMode := true
    boxName := "goCarPlay"
    hand := 0
    mediaDelay := 1000
    audioTransferMode := false
    wifiType := "5ghz"
    wifiChannel := 36
    micType := "os"
    phoneConfig := [(3, some 5000), (5, none)] }

/-- `GetWifiCommand`: `Wifi5g` (25) or `Wifi24g` (24). -/
def getWifiCommand (c : DongleConfig) : Nat :=
  if c.wifiType = "5ghz" then 25 else 24

/-- `GetMicCommand`: `BoxMicrophone` (15) or `CarMicrophone` (7). -/
def getMicCommand (c : DongleConfig) : Nat :=
  if c.micType = "box" then 15 else 7

/-- `GetAudioTransferCommand`: `AudioTransferOn` (22) or `AudioTransferOff` (23). -/
def getAudioTransferCommand (c : DongleConfig) : Nat :=
  if c.audioTransferMode then 22 else 23

/-- `boolToByte` (link/communicate.go): i32 1/0 little-endian. -/
def boolToBytes (b : Bool) : List Nat :=
  if b then i32ToBytes 1 else i32ToBytes 0

/-- The ordered outbound messages of `StartWithConfig`
(link/communicate.go), assuming each send succeeds.  `settingsJson` stands
for the `json.Marshal` output of `SendBoxSettings` — it embeds the wall
clock (`syncTime`), so it is a parameter of the pure model.  The final
`CarPlay{WifiConnect}` (code 1002) follows the 600 ms settle sleep; the
heartbeat ticker started afterwards is a separate task and not part of
this list. -/
def startWithConfigMsgs (c : DongleConfig) (settingsJson : List Nat) : List Payload :=
  [.sendFile (strBytes (fileAddressDPI ++ "\x00")) (i32ToBytes c.dpi),
   .openMsg c.width c.height c.fps c.format c.packetMax c.iBoxVersion c.phoneWorkMode,
   .sendFile (strBytes (fileAddressNightMode ++ "\x00")) (boolToBytes c.nightMode),
   .sendFile (strBytes (fileAddressHandDriveMode ++ "\x00")) (i32ToBytes c.hand),
   .sendFile (strBytes (fileAddressChargeMode ++ "\x00")) (boolToBytes true),
   .sendFile (strBytes (fileAddressBoxName ++ "\x00")) (strBytes c.boxName),
   .carPlay (getWifiCommand c),
   .boxSettings settingsJson,
   .carPlay 1000,
   .carPlay (getMicCommand c),
   .carPlay (getAudioTransferCommand c)] ++
  (if c.androidWorkMode then
    [.sendFile (strBytes (fileAddressAndroidWorkMode ++ "\x00"))
      (boolToBytes c.androidWorkMode)]
   else []) ++
  [.carPlay 1002]

/-- Claim C7: with the default configuration (dpi 140, night mode on, LHD,
box name "goCarPlay"), the session start sequence emits as its first six
outbound messages, in this order: `SendFile(/tmp/screen_dpi, i32 140)`,
`Open{...}`, `SendFile(/tmp/night_mode, i32 1)`,
`SendFile(/tmp/hand_drive_mode, i32 0)`, `SendFile(/tmp/charge_mode, i32 1)`,
`SendFile(/etc/box_name, "goCarPlay")`. -/
theorem handshake_first_six (settingsJson : List Nat) :
    (startWithConfigMsgs defaultConfig settingsJson).take 6 =
      [.sendFile (strBytes "/tmp/screen_dpi\x00") [140, 0, 0, 0],
       .openMsg 800 480 60 5 49152 2 2,
       .sendFile (strBytes "/tmp/night_mode\x00") [1, 0, 0, 0],
       .sendFile (strBytes "/tmp/hand_drive_mode\x00") [0, 0, 0, 0],
       .sendFile (strBytes "/tmp/charge_mode\x00") [1, 0, 0, 0],
       .sendFile (strBytes "/etc/box_name\x00") (strBytes "goCarPlay")] := by
  rfl

/-! ### Video frame buffer (cmd/server/main.go) -/

/-- One H.264 access unit as an owned byte vector. -/
abbrev Frame : Type := List Nat

/-- Non-blocking channel receive (`select { case f := <-ch: ... default: }`)
on a Go channel modelled as the FIFO list of queued elements. -/
def tryRecv : List Frame → Option (Frame × List Frame)
  | [] => none
  | f :: rest => some (f, rest)

/-- The drain loop of `handleConnection` (cmd/server/main.go):
`for { select { case <-h264Frames: drained++ default: goto done } }` —
with no concurrent producer it empties the queue. -/
def drainLoop : List Frame → List Frame
  | [] => []
  | _ :: rest => drainLoop rest

/-- Non-blocking channel send (`select { case ch <- f: default: }`) on a
channel of capacity `cap`: drop the frame when full. -/
def trySend (cap : Nat) (q : List Frame) (f : Frame) : List Frame :=
  if q.length < cap then q ++ [f] else q

/-- `h264Frames = make(chan []byte, 3)` (init, cmd/server/main.go). -/
def h264FramesCap : Nat := 3

/-- The insertion step of the video pipeline: drain all queued frames, then
push the new one. -/
def insertFrame (q : List Frame) (f : Frame) : List Frame :=
  trySend h264FramesCap (drainLoop q) f

theorem drainLoop_nil (q : List Frame) : drainLoop q = [] := by
  induction q with
  | nil => rfl
  | cons f rest ih => simpa [drainLoop] using ih

theorem insertFrame_eq (q : List Frame) (f : Frame) : insertFrame q f = [f] := by
  simp [insertFrame, drainLoop_nil, trySend, h264FramesCap]

/-- Claim C8: the video buffer obeys latest-wins: from any starting queue,
after N insertions with no intervening reads the queue holds exactly the
N-th frame, and a read returns that frame and leaves the queue empty. -/
theorem foldl_insert_getLastD (fs : List Frame) :
    ∀ (q0 : List Frame) (f : Frame),
      (f :: fs).foldl insertFrame q0 = [fs.getLastD f] := by
  induction fs with
  | nil =>
      intro q0 f
      simp [insertFrame_eq]
  | cons g rest ih =>
      intro q0 f
      rw [List.foldl_cons, ih (insertFrame q0 f) g, List.getLastD_cons]

theorem latest_wins (q0 : List Frame) (fs : List Frame) (hne : fs ≠ []) :
    fs.foldl insertFrame q0 = [fs.getLast hne] ∧
    tryRecv (fs.foldl insertFrame q0) = some (fs.getLast hne, []) := by
  match fs, hne with
  | f :: rest, hne =>
      have h := foldl_insert_getLastD rest q0 f
      have hlast : (f :: rest).getLast hne = rest.getLastD f :=
        List.getLast_eq_getLastD f rest hne
      refine ⟨?_, ?_⟩
      · rw [h, hlast]
      · rw [h, hlast]
        rfl

/-- Witness for C8: four insertions into an initially empty queue. -/
theorem latest_wins_witness :
    [[1], [2], [3], [4]].foldl insertFrame [] = [[4]] ∧
    tryRecv ([[1], [2], [3], [4]].foldl insertFrame []) = some ([4], []) := by
  have h := latest_wins [] [[1], [2], [3], [4]] (by simp)
  simpa using h

/-! ### Phone-plugged handling (link/communicate.go) -/

/-- `HandlePhonePlugged` (link/communicate.go), for a session whose
`currentConfig` is `c` (the nil-config early return is outside this model):
returns the updated config and the outbound messages attempted.  `sendOk`
models whether the `SendData` call returned nil; the `androidWorkMode`
flag is only set on success.  Phone types: `AndroidMirror` = 1,
`AndroidAuto` = 5. -/
def handlePhonePlugged (c : DongleConfig) (phoneType : Nat) (sendOk : Bool) :
    DongleConfig × List Payload :=
  if ¬ c.autoDetectAndroidMode then (c, [])
  else if c.androidWorkMode then (c, [])
  else if phoneType = 5 ∨ phoneType = 1 then
    (if sendOk then {c with androidWorkMode := true} else c,
     [.sendFile (strBytes (fileAddressAndroidWorkMode ++ "\x00")) (boolToBytes true)])
  else (c, [])

/-- Fold `HandlePhonePlugged` over a sequence of plugged events
`(phoneType, sendOk)`, collecting all outbound messages. -/
def processPlugged (c : DongleConfig) : List (Nat × Bool) → DongleConfig × List Payload
  | [] => (c, [])
  | ev :: evs =>
      let r := handlePhonePlugged c ev.1 ev.2
      let rest := processPlugged r.1 evs
      (rest.1, r.2 ++ rest.2)

/-- Claim C9: with `autoDetectAndroidMode = true` and `androidWorkMode =
false`, a `Plugged` event with an Android phone type whose send succeeds
emits exactly one `SendFile(/etc/android_work_mode, i32 1)` and sets
`androidWorkMode`; afterwards every further `Plugged` event — any phone
type, any send outcome — emits nothing and leaves the config unchanged. -/
theorem plugged_idempotent (c : DongleConfig) (pt : Nat)
    (hauto : c.autoDetectAndroidMode = true)
    (hawm : c.androidWorkMode = false)
    (hpt : pt = 5 ∨ pt = 1) :
    handlePhonePlugged c pt true =
      ({c with androidWorkMode := true},
       [.sendFile (strBytes (fileAddressAndroidWorkMode ++ "\x00")) (boolToBytes true)]) ∧
    ∀ evs, processPlugged {c with androidWorkMode := true} evs =
      ({c with androidWorkMode := true}, []) := by
  constructor
  · simp [handlePhonePlugged, hauto, hawm, hpt]
  · intro evs
    induction evs with
    | nil => rfl
    | cons ev evs ih =>
        have hstep : handlePhonePlugged {c with androidWorkMode := true} ev.1 ev.2 =
            ({c with androidWorkMode := true}, []) := by
          simp [handlePhonePlugged, hauto]
        simp [processPlugged, hstep, ih]

/-- Witness for C9 at the default configuration, first event
`Plugged{AndroidAuto}` with a successful send, then two further events. -/
theorem plugged_idempotent_witness :
    handlePhonePlugged defaultConfig 5 true =
      ({defaultConfig with androidWorkMode := true},
       [.sendFile (strBytes (fileAddressAndroidWorkMode ++ "\x00")) (boolToBytes true)]) ∧
    processPlugged {defaultConfig with androidWorkMode := true}
        [(5, true), (1, false)] =
      ({defaultConfig with androidWorkMode := true}, []) := by
  obtain ⟨h1, h2⟩ := plugged_idempotent defaultConfig 5 rfl rfl (Or.inl rfl)
  exact ⟨h1, h2 _⟩

end CarPlay
